import Mathlib

/-!
Shallow embedding of the dxvk multi-GPU support core
(`src/vk_multigpu_device.cpp` / `src/vk_multigpu_support.cpp`).

Machine integers (`uint32_t`, `uint64_t`) are modelled as `Nat`; the
arithmetic performed by the code (index scaling, flooring division,
subtraction of an offset from a total) stays far below 2^32 whenever the
inputs do, so no wrap-around modelling is needed.  Vulkan handles
(`VkSemaphore`, `VkBuffer`, `VkImage`, `VkDeviceMemory`) are modelled as
`Nat` with `0` standing for `VK_NULL_HANDLE`.  Calls into the external
Vulkan driver are modelled as explicit parameters carrying the driver's
answer.
-/

/-- `FrameDistributionMode` from `vk_multigpu_support.h`. -/
inductive FrameDistributionMode where
  | SPLIT_FRAME_HORIZONTAL
  | SPLIT_FRAME_VERTICAL
  | SPLIT_FRAME_QUADRANTS
  | AFR_ALTERNATING
  | SFR_OPTIMIZED
deriving DecidableEq

/-- `FrameRegion` from `vk_multigpu_support.h`: a rectangle of pixels owned
by one device. -/
structure FrameRegion where
  offsetX : Nat
  offsetY : Nat
  width : Nat
  height : Nat
  gpuIndex : Nat
deriving DecidableEq

/-- C++ unsigned integer division `a / b`.  Division by zero is undefined
behavior in C++; the embedding makes that explicit by returning `none`
exactly when the source expression would divide by zero.  This is not a
check present in the source: the source performs the division
unconditionally. -/
def checkedDiv (a b : Nat) : Option Nat :=
  if b = 0 then none else some (a / b)

/-- `VkFrameDistributor::ComputeHorizontalSplit`
(`vk_multigpu_support.cpp:38`): `regionWidth = frameWidth / gpuCount`,
then one region per device; all regions have width `regionWidth` except
the last, which extends to `frameWidth`. -/
def ComputeHorizontalSplit (frameWidth frameHeight gpuCount : Nat) :
    Option (List FrameRegion) :=
  (checkedDiv frameWidth gpuCount).map fun regionWidth =>
    (List.range gpuCount).map fun i =>
      { offsetX := i * regionWidth
        offsetY := 0
        width := if i = gpuCount - 1 then frameWidth - i * regionWidth else regionWidth
        height := frameHeight
        gpuIndex := i }

/-- `VkFrameDistributor::ComputeVerticalSplit`
(`vk_multigpu_support.cpp:55`): symmetric to the horizontal split, by
rows. -/
def ComputeVerticalSplit (frameWidth frameHeight gpuCount : Nat) :
    Option (List FrameRegion) :=
  (checkedDiv frameHeight gpuCount).map fun regionHeight =>
    (List.range gpuCount).map fun i =>
      { offsetX := 0
        offsetY := i * regionHeight
        width := frameWidth
        height := if i = gpuCount - 1 then frameHeight - i * regionHeight else regionHeight
        gpuIndex := i }

/-- `VkFrameDistributor::ComputeQuadrantSplit`
(`vk_multigpu_support.cpp:72`): at most four regions, ordinal
0/1/2/3 mapped to top-left/top-right/bottom-left/bottom-right; the
right and bottom quadrants absorb the midline remainders. -/
def ComputeQuadrantSplit (frameWidth frameHeight gpuCount : Nat) :
    List FrameRegion :=
  let halfWidth := frameWidth / 2
  let halfHeight := frameHeight / 2
  (List.range (min 4 gpuCount)).map fun i =>
    if i = 0 then
      { offsetX := 0, offsetY := 0, width := halfWidth, height := halfHeight, gpuIndex := i }
    else if i = 1 then
      { offsetX := halfWidth, offsetY := 0, width := frameWidth - halfWidth,
        height := halfHeight, gpuIndex := i }
    else if i = 2 then
      { offsetX := 0, offsetY := halfHeight, width := halfWidth,
        height := frameHeight - halfHeight, gpuIndex := i }
    else
      { offsetX := halfWidth, offsetY := halfHeight, width := frameWidth - halfWidth,
        height := frameHeight - halfHeight, gpuIndex := i }

/-- `VkFrameDistributor::ComputeFrameRegions`
(`vk_multigpu_support.cpp:25`): dispatch on the distribution mode; the
`AFR_ALTERNATING` and `SFR_OPTIMIZED` modes fall through to the
horizontal split (the `default` branch). -/
def ComputeFrameRegions (mode : FrameDistributionMode)
    (frameWidth frameHeight gpuCount : Nat) : Option (List FrameRegion) :=
  match mode with
  | FrameDistributionMode.SPLIT_FRAME_HORIZONTAL =>
      ComputeHorizontalSplit frameWidth frameHeight gpuCount
  | FrameDistributionMode.SPLIT_FRAME_VERTICAL =>
      ComputeVerticalSplit frameWidth frameHeight gpuCount
  | FrameDistributionMode.SPLIT_FRAME_QUADRANTS =>
      some (ComputeQuadrantSplit frameWidth frameHeight gpuCount)
  | _ => ComputeHorizontalSplit frameWidth frameHeight gpuCount

/-- Pixel `(x, y)` lies inside region `r`. -/
def covers (r : FrameRegion) (x y : Nat) : Prop :=
  r.offsetX ≤ x ∧ x < r.offsetX + r.width ∧
  r.offsetY ≤ y ∧ y < r.offsetY + r.height

instance (r : FrameRegion) (x y : Nat) : Decidable (covers r x y) := by
  unfold covers; infer_instance

/-- The region list `rs` is an exact partition of the frame rectangle
`[0, w) × [0, h)`: every region stays inside the frame, and each pixel of
the frame is covered by exactly one region (by list position). -/
def isPartition (rs : List FrameRegion) (w h : Nat) : Prop :=
  (∀ r ∈ rs, ∀ x y, covers r x y → x < w ∧ y < h) ∧
  ∀ x y, x < w → y < h →
    ∃ i, ∃ hi : i < rs.length, covers rs[i] x y ∧
      ∀ j, (hj : j < rs.length) → covers rs[j] x y → j = i

/-- The `UINT32_MAX` sentinel marking an unresolved queue family
(`vk_multigpu_device.cpp:114`). -/
def UINT32_MAX : Nat := 4294967295

/-- The capability bits of one Vulkan queue family
(`VkQueueFamilyProperties::queueFlags` restricted to the three bits the
code tests). -/
structure QueueFamily where
  graphics : Bool
  compute : Bool
  transfer : Bool
deriving DecidableEq

/-- The queue-family indices of `VkGpuDevice` (`vk_multigpu_device.h`),
together with the device ordinal.  Handles, names and property blobs are
opaque to every algorithm in the code and are omitted. -/
structure VkGpuDevice where
  deviceId : Nat
  graphicsQueueFamilyIndex : Nat
  computeQueueFamilyIndex : Nat
  transferQueueFamilyIndex : Nat
deriving DecidableEq

/-- One iteration of the selection loop in
`VkMultiGpuManager::SelectQueueFamilyIndices`
(`vk_multigpu_device.cpp:118-128`): family `i` overwrites the graphics
index whenever it carries the graphics bit, and sets the
compute/transfer index only when that index is still `UINT32_MAX`. -/
def selectStep (i : Nat) (f : QueueFamily) (s : Nat × Nat × Nat) :
    Nat × Nat × Nat :=
  (if f.graphics then i else s.1,
   if f.compute && (s.2.1 == UINT32_MAX) then i else s.2.1,
   if f.transfer && (s.2.2 == UINT32_MAX) then i else s.2.2)

/-- The selection loop, folding `selectStep` over the enumerated
families starting at index `i`. -/
def selectAux : Nat → List QueueFamily → Nat × Nat × Nat → Nat × Nat × Nat
  | _, [], s => s
  | i, f :: rest, s => selectAux (i + 1) rest (selectStep i f s)

/-- `VkMultiGpuManager::SelectQueueFamilyIndices`
(`vk_multigpu_device.cpp:107`): all three indices start at `UINT32_MAX`,
the loop runs over the enumerated families, and the device is rejected
(`none`) exactly when the graphics index is still `UINT32_MAX`
afterwards. -/
def SelectQueueFamilyIndices (queueFamilies : List QueueFamily) :
    Option (Nat × Nat × Nat) :=
  let s := selectAux 0 queueFamilies (UINT32_MAX, UINT32_MAX, UINT32_MAX)
  if s.1 ≠ UINT32_MAX then some s else none

/-- A physical device as seen by `InitializeMultiGpu`: its enumerated
queue families, and whether the external
`vkCreateDevice`/`vkCreateCommandPool` bring-up
(`VkMultiGpuManager::CreateLogicalDevice`) succeeds for it.  The
bring-up outcome is decided by the Vulkan driver, so the embedding
carries it as an input. -/
structure PhysicalDevice where
  queueFamilies : List QueueFamily
  bringupOk : Bool
deriving DecidableEq

/-- The candidate loop of `VkMultiGpuManager::InitializeMultiGpu`
(`vk_multigpu_device.cpp:40-60`): each candidate in turn attempts
queue-family selection and then logical-device bring-up; a failure of
either skips that candidate, a success appends a `VkGpuDevice` record
with `deviceId = i`. -/
def admitCandidates : Nat → List PhysicalDevice → List VkGpuDevice
  | _, [] => []
  | i, d :: rest =>
    match SelectQueueFamilyIndices d.queueFamilies with
    | none => admitCandidates (i + 1) rest
    | some (g, c, t) =>
      if d.bringupOk then
        { deviceId := i, graphicsQueueFamilyIndex := g,
          computeQueueFamilyIndex := c, transferQueueFamilyIndex := t } ::
          admitCandidates (i + 1) rest
      else admitCandidates (i + 1) rest

/-- `VkMultiGpuManager::InitializeMultiGpu`
(`vk_multigpu_device.cpp:22`): zero enumerated devices fails
immediately; otherwise `gpusToUse = min(physicalDeviceCount,
desiredGpuCount)` candidates are attempted, and the call fails when the
resulting active set is empty.  `none` models `return false`, `some`
the resulting `gpuDevices` list on `return true`. -/
def InitializeMultiGpu (devices : List PhysicalDevice) (desiredGpuCount : Nat) :
    Option (List VkGpuDevice) :=
  if devices.length = 0 then none
  else
    let gpusToUse := min devices.length desiredGpuCount
    let active := admitCandidates 0 (devices.take gpusToUse)
    if active.isEmpty then none else some active

/-- `VkMultiGpuManager::GetGpuByIndex` (`vk_multigpu_device.cpp:77`):
bounds-checked access, `none` models the `nullptr` return. -/
def GetGpuByIndex (gpuDevices : List VkGpuDevice) (index : Nat) :
    Option VkGpuDevice :=
  if h : index < gpuDevices.length then some gpuDevices[index] else none

/-- `VkMultiGpuManager::SupportsAsyncComputeOnGpu`
(`vk_multigpu_device.cpp:84`): out of range yields `false`, otherwise
whether the compute family sentinel was replaced. -/
def SupportsAsyncComputeOnGpu (gpuDevices : List VkGpuDevice) (gpuIndex : Nat) :
    Bool :=
  if h : gpuIndex < gpuDevices.length then
    gpuDevices[gpuIndex].computeQueueFamilyIndex != UINT32_MAX
  else false

/-- `VkMultiGpuManager::AllocateMemory` (`vk_multigpu_device.cpp:93`):
out of range returns `VK_NULL_HANDLE` (0) without touching the driver;
in range, the handle produced by the external `vkAllocateMemory` call
(carried as the `vkResult` parameter) is returned. -/
def AllocateMemory (gpuDevices : List VkGpuDevice) (gpuIndex : Nat)
    (vkResult : Nat) : Nat :=
  if gpuIndex < gpuDevices.length then vkResult else 0

/-- `VkMultiGpuManager::FreeMemory` (`vk_multigpu_device.cpp:101`): the
function mutates no manager state; the embedding records whether the
guarded external `vkFreeMemory` call is made. -/
def FreeMemoryInvokesDriver (gpuDevices : List VkGpuDevice) (gpuIndex : Nat)
    (memory : Nat) : Bool :=
  decide (gpuIndex < gpuDevices.length) && (memory != 0)

/-- The state of `VkMultiGpuSynchronizer` (`vk_multigpu_support.h`):
per-device lists of owned semaphore handles and per-device completion
counters. -/
structure SyncState where
  timelineSemaphores : List (List Nat)
  currentFrameIds : List Nat
deriving DecidableEq

/-- The `VkMultiGpuSynchronizer` constructor
(`vk_multigpu_support.cpp:114`): one empty handle list and one zero
counter per active device. -/
def mkSynchronizer (gpuCount : Nat) : SyncState :=
  { timelineSemaphores := List.replicate gpuCount []
    currentFrameIds := List.replicate gpuCount 0 }

/-- `VkMultiGpuSynchronizer::CreateTimelineSemaphore`
(`vk_multigpu_support.cpp:129`): out of range returns `VK_NULL_HANDLE`
(0) and changes nothing; in range, a `VK_NULL_HANDLE` placeholder is
appended to that device's handle list and returned.  `initialValue` is
ignored by the source. -/
def CreateTimelineSemaphore (s : SyncState) (gpuIndex initialValue : Nat) :
    SyncState × Nat :=
  if s.timelineSemaphores.length ≤ gpuIndex then (s, 0)
  else
    let updated := s.timelineSemaphores.set gpuIndex
      (s.timelineSemaphores.getD gpuIndex [] ++ [0])
    ({ s with timelineSemaphores := updated }, 0)

/-- `VkMultiGpuSynchronizer::SignalFrameComplete`
(`vk_multigpu_support.cpp:138`): in range, the counter is assigned
`frameId`; out of range, nothing happens. -/
def SignalFrameComplete (s : SyncState) (gpuIndex frameId : Nat) : SyncState :=
  if gpuIndex < s.currentFrameIds.length then
    { s with currentFrameIds := s.currentFrameIds.set gpuIndex frameId }
  else s

/-- `VkMultiGpuSynchronizer::WaitForFrameComplete`
(`vk_multigpu_support.cpp:142`): the body is empty — the call returns
immediately and changes nothing. -/
def WaitForFrameComplete (s : SyncState) (gpuIndex frameId : Nat) : SyncState :=
  s

/-- `VkMultiGpuSynchronizer::DestroySemaphore`
(`vk_multigpu_support.cpp:136`): empty body. -/
def DestroySemaphore (s : SyncState) (gpuIndex semaphore : Nat) : SyncState :=
  s

/-- `VkMultiGpuSynchronizer::InsertInterGpuBarrier`
(`vk_multigpu_support.cpp:144`): empty body. -/
def InsertInterGpuBarrier (s : SyncState) (srcGpu dstGpu srcStage dstStage : Nat) :
    SyncState :=
  s

/-- `VkMultiGpuSynchronizer::CreateCrossGpuEvent`
(`vk_multigpu_support.cpp:148`): returns `VK_NULL_HANDLE`, no state
change. -/
def CreateCrossGpuEvent (s : SyncState) (gpuIndex : Nat) : SyncState × Nat :=
  (s, 0)

/-- `VkMultiGpuSynchronizer::SignalEvent` (`vk_multigpu_support.cpp:150`):
empty body. -/
def SignalEvent (s : SyncState) (gpuIndex event : Nat) : SyncState :=
  s

/-- `VkMultiGpuSynchronizer::WaitForEvent` (`vk_multigpu_support.cpp:152`):
empty body. -/
def WaitForEvent (s : SyncState) (gpuIndex event : Nat) : SyncState :=
  s

/-- `MemoryPlacementStrategy` from `vk_multigpu_support.h`. -/
inductive MemoryPlacementStrategy where
  | REPLICATED
  | DISTRIBUTED
  | PINNED_HOST
  | GPU_LOCAL
deriving DecidableEq

/-- A `std::map` keyed by Vulkan handles (`Nat`, with `0` for
`VK_NULL_HANDLE`), as an association list with at most one entry per
key. -/
abbrev StrategyMap := List (Nat × MemoryPlacementStrategy)

/-- `std::map::find` followed by reading the mapped value. -/
def mapFind (m : StrategyMap) (key : Nat) : Option MemoryPlacementStrategy :=
  (m.find? fun p => p.1 == key).map fun p => p.2

/-- `std::map::operator[]` assignment: replace the entry for `key` if
present, otherwise append a new entry. -/
def mapStore : StrategyMap → Nat → MemoryPlacementStrategy → StrategyMap
  | [], key, v => [(key, v)]
  | p :: rest, key, v =>
    if p.1 = key then (key, v) :: rest else p :: mapStore rest key v

/-- `std::map::erase(key)`: remove the entry for `key` if present. -/
def mapErase : StrategyMap → Nat → StrategyMap
  | [], _ => []
  | p :: rest, key => if p.1 = key then rest else p :: mapErase rest key

/-- The state of `VkMultiGpuMemoryManager` (`vk_multigpu_support.h`):
the two placement-record maps. -/
structure MemState where
  bufferStrategies : StrategyMap
  imageStrategies : StrategyMap
deriving DecidableEq

/-- `VkMultiGpuMemoryManager::AllocateBuffer`
(`vk_multigpu_support.cpp:163`): the returned handle is always
`VK_NULL_HANDLE` (0); the chosen strategy is recorded against that
handle.  `usage`, `size` and `targetGpus` are ignored by the source. -/
def AllocateBuffer (st : MemState) (usage size : Nat)
    (strategy : MemoryPlacementStrategy) (targetGpus : List Nat) :
    MemState × Nat :=
  let buffer := 0
  ({ st with bufferStrategies := mapStore st.bufferStrategies buffer strategy },
   buffer)

/-- `VkMultiGpuMemoryManager::AllocateImage`
(`vk_multigpu_support.cpp:171`): same shape as `AllocateBuffer`, against
the image map. -/
def AllocateImage (st : MemState)
    (strategy : MemoryPlacementStrategy) (targetGpus : List Nat) :
    MemState × Nat :=
  let image := 0
  ({ st with imageStrategies := mapStore st.imageStrategies image strategy },
   image)

/-- `VkMultiGpuMemoryManager::FreeBuffer`
(`vk_multigpu_support.cpp:179`): erase the record for the handle. -/
def FreeBuffer (st : MemState) (buffer : Nat) : MemState :=
  { st with bufferStrategies := mapErase st.bufferStrategies buffer }

/-- `VkMultiGpuMemoryManager::FreeImage`
(`vk_multigpu_support.cpp:183`): erase the record for the handle. -/
def FreeImage (st : MemState) (image : Nat) : MemState :=
  { st with imageStrategies := mapErase st.imageStrategies image }

/-- One call to the memory manager's record-changing interface, for
stating invariants over arbitrary call sequences. -/
inductive MemOp where
  | allocBuffer (usage size : Nat) (strategy : MemoryPlacementStrategy)
      (targetGpus : List Nat)
  | allocImage (strategy : MemoryPlacementStrategy) (targetGpus : List Nat)
  | freeBuffer (buffer : Nat)
  | freeImage (image : Nat)

/-- Run a sequence of memory-manager calls from a given state. -/
def runMemOps : MemState → List MemOp → MemState
  | st, [] => st
  | st, MemOp.allocBuffer u z strat t :: ops =>
      runMemOps (AllocateBuffer st u z strat t).1 ops
  | st, MemOp.allocImage strat t :: ops =>
      runMemOps (AllocateImage st strat t).1 ops
  | st, MemOp.freeBuffer b :: ops => runMemOps (FreeBuffer st b) ops
  | st, MemOp.freeImage b :: ops => runMemOps (FreeImage st b) ops

/-- The fresh memory-manager state (both maps empty), per the
`VkMultiGpuMemoryManager` constructor. -/
def mkMemoryManager : MemState := { bufferStrategies := [], imageStrategies := [] }

/-- C2: the claim says `WaitForFrameComplete(device, id)` blocks until the
per-device counter is observed `≥ id` and never returns while the counter
is below `id`.  The source body is empty
(`vk_multigpu_support.cpp:142`), so the call always returns immediately
with the state unchanged; in particular, on a fresh one-device
synchronizer whose counter is 0, `WaitForFrameComplete(0, 1)` returns
while the counter (0) is still below the requested id (1). -/
theorem waitForFrameComplete_returns_immediately :
    (∀ (s : SyncState) (gpuIndex frameId : Nat),
      WaitForFrameComplete s gpuIndex frameId = s) ∧
    WaitForFrameComplete (mkSynchronizer 1) 0 1 = mkSynchronizer 1 ∧
    (mkSynchronizer 1).currentFrameIds = [0] ∧ (0 : Nat) < 1 :=
  ⟨fun _ _ _ => rfl, rfl, rfl, Nat.one_pos⟩

/-- C3: the claim says that with zero active devices the region
computation fails fast with a degenerate-partition error instead of
dividing by zero.  The source has no such guard: the horizontal and
vertical splits evaluate `frameWidth / gpuCount` (resp. height)
unconditionally, which at `gpuCount = 0` is a C++ division by zero
(undefined behavior, modelled by `checkedDiv` returning `none`), and the
quadrant split silently returns an empty region list. -/
theorem computeFrameRegions_zero_devices_divides_by_zero :
    (∀ frameWidth frameHeight,
      ComputeHorizontalSplit frameWidth frameHeight 0 = none) ∧
    (∀ frameWidth frameHeight,
      ComputeVerticalSplit frameWidth frameHeight 0 = none) ∧
    ComputeFrameRegions FrameDistributionMode.SPLIT_FRAME_HORIZONTAL 1920 1080 0 = none ∧
    ComputeFrameRegions FrameDistributionMode.SPLIT_FRAME_VERTICAL 1920 1080 0 = none ∧
    ComputeFrameRegions FrameDistributionMode.SPLIT_FRAME_QUADRANTS 1920 1080 0 = some [] :=
  ⟨fun _ _ => rfl, fun _ _ => rfl, rfl, rfl, rfl⟩

/-- C4 counterexample: the claim says no operation ever makes a device's
counter smaller than a value it previously held.  `SignalFrameComplete`
assigns the given id unconditionally (`vk_multigpu_support.cpp:139`), so
signalling 5 and then 3 on device 0 lowers the counter from 5 to 3. -/
theorem signalFrameComplete_can_lower_counter :
    (SignalFrameComplete (mkSynchronizer 1) 0 5).currentFrameIds = [5] ∧
    (SignalFrameComplete (SignalFrameComplete (mkSynchronizer 1) 0 5) 0 3).currentFrameIds
      = [3] ∧
    (3 : Nat) < 5 := by
  decide

/-- C4 amended: every per-device counter starts at 0, and
`SignalFrameComplete(device, id)` sets the in-range device's counter to
exactly `id` (leaving the other counters alone) and is a no-op out of
range; the counter is therefore monotone only when callers pass
non-decreasing ids, not unconditionally. -/
theorem signalFrameComplete_sets_counter :
    (∀ gpuCount, (mkSynchronizer gpuCount).currentFrameIds = List.replicate gpuCount 0) ∧
    (∀ (s : SyncState) (gpuIndex frameId : Nat),
      gpuIndex < s.currentFrameIds.length →
      (SignalFrameComplete s gpuIndex frameId).currentFrameIds[gpuIndex]? = some frameId) ∧
    (∀ (s : SyncState) (gpuIndex frameId j : Nat), j ≠ gpuIndex →
      (SignalFrameComplete s gpuIndex frameId).currentFrameIds[j]? =
        s.currentFrameIds[j]?) ∧
    (∀ (s : SyncState) (gpuIndex frameId : Nat),
      s.currentFrameIds.length ≤ gpuIndex →
      SignalFrameComplete s gpuIndex frameId = s) := by
  refine ⟨fun _ => rfl, ?_, ?_, ?_⟩
  · intro s g fid hg
    simp [SignalFrameComplete, hg]
  · intro s g fid j hj
    by_cases hg : g < s.currentFrameIds.length
    · simp [SignalFrameComplete, hg, List.getElem?_set_ne (fun hh => hj hh.symm)]
    · simp [SignalFrameComplete, hg]
  · intro s g fid hg
    simp [SignalFrameComplete, Nat.not_lt.mpr hg]

/-- C4 witness: the amended statement at a concrete two-device
synchronizer. -/
theorem signalFrameComplete_sets_counter_witness :
    (mkSynchronizer 2).currentFrameIds = List.replicate 2 0 ∧
    (SignalFrameComplete (mkSynchronizer 2) 0 7).currentFrameIds[0]? = some 7 ∧
    SignalFrameComplete (mkSynchronizer 2) 5 7 = mkSynchronizer 2 :=
  ⟨signalFrameComplete_sets_counter.1 2,
   signalFrameComplete_sets_counter.2.1 (mkSynchronizer 2) 0 7 (by decide),
   signalFrameComplete_sets_counter.2.2.2 (mkSynchronizer 2) 5 7 (by decide)⟩

/-- C7: every device-indexed operation given an index `≥` the active
count returns an absent result (`none`, `VK_NULL_HANDLE`, `false`) or
silently does nothing, and leaves every piece of recorded state
unchanged. -/
theorem out_of_range_index_is_noop (gpuDevices : List VkGpuDevice)
    (s : SyncState) (i vkResult memory frameId semaphore event srcStage dstStage iv : Nat)
    (hg : gpuDevices.length ≤ i)
    (ht : s.timelineSemaphores.length ≤ i)
    (hc : s.currentFrameIds.length ≤ i) :
    GetGpuByIndex gpuDevices i = none ∧
    AllocateMemory gpuDevices i vkResult = 0 ∧
    FreeMemoryInvokesDriver gpuDevices i memory = false ∧
    SupportsAsyncComputeOnGpu gpuDevices i = false ∧
    CreateTimelineSemaphore s i iv = (s, 0) ∧
    SignalFrameComplete s i frameId = s ∧
    WaitForFrameComplete s i frameId = s ∧
    DestroySemaphore s i semaphore = s ∧
    InsertInterGpuBarrier s i i srcStage dstStage = s ∧
    CreateCrossGpuEvent s i = (s, 0) ∧
    SignalEvent s i event = s ∧
    WaitForEvent s i event = s := by
  have hg' : ¬ i < gpuDevices.length := Nat.not_lt.mpr hg
  have hc' : ¬ i < s.currentFrameIds.length := Nat.not_lt.mpr hc
  refine ⟨?_, ?_, ?_, ?_, ?_, ?_, rfl, rfl, rfl, rfl, rfl, rfl⟩
  · simp [GetGpuByIndex, hg']
  · simp [AllocateMemory, hg']
  · simp [FreeMemoryInvokesDriver, hg']
  · simp [SupportsAsyncComputeOnGpu, hg']
  · simp [CreateTimelineSemaphore, ht]
  · simp [SignalFrameComplete, hc']

/-- C7 witness: the out-of-range no-op statement at a concrete
zero-device manager and synchronizer with index 0. -/
theorem out_of_range_index_is_noop_witness :
    GetGpuByIndex [] 0 = none ∧
    AllocateMemory [] 0 9 = 0 ∧
    FreeMemoryInvokesDriver [] 0 9 = false ∧
    SupportsAsyncComputeOnGpu [] 0 = false ∧
    CreateTimelineSemaphore (mkSynchronizer 0) 0 0 = (mkSynchronizer 0, 0) ∧
    SignalFrameComplete (mkSynchronizer 0) 0 9 = mkSynchronizer 0 ∧
    WaitForFrameComplete (mkSynchronizer 0) 0 9 = mkSynchronizer 0 ∧
    DestroySemaphore (mkSynchronizer 0) 0 9 = mkSynchronizer 0 ∧
    InsertInterGpuBarrier (mkSynchronizer 0) 0 0 9 9 = mkSynchronizer 0 ∧
    CreateCrossGpuEvent (mkSynchronizer 0) 0 = (mkSynchronizer 0, 0) ∧
    SignalEvent (mkSynchronizer 0) 0 9 = mkSynchronizer 0 ∧
    WaitForEvent (mkSynchronizer 0) 0 9 = mkSynchronizer 0 :=
  out_of_range_index_is_noop [] (mkSynchronizer 0) 0 9 9 9 9 9 9 9 0
    (by decide) (by decide) (by decide)

lemma mapErase_not_found : ∀ (m : StrategyMap) (key : Nat),
    mapFind m key = none → mapErase m key = m := by
  intro m key h
  induction m with
  | nil => rfl
  | cons p rest ih =>
    by_cases hp : p.1 = key
    · simp [mapFind, List.find?_cons, hp] at h
    · simp [mapFind, List.find?_cons, hp] at h
      simp [mapErase, hp, ih (by simpa [mapFind] using h)]

lemma mapFind_mapStore_self : ∀ (m : StrategyMap) (key : Nat)
    (v : MemoryPlacementStrategy), mapFind (mapStore m key v) key = some v := by
  intro m key v
  induction m with
  | nil => simp [mapStore, mapFind, List.find?_cons]
  | cons p rest ih =>
    by_cases hp : p.1 = key
    · simp [mapStore, hp, mapFind, List.find?_cons]
    · simp [mapStore, hp, mapFind, List.find?_cons, hp]
      simpa [mapFind] using ih

/-- C9: freeing a buffer handle that has no placement record is a no-op
on the recorded state, and a strategy lookup on the handle returned by
`AllocateBuffer` immediately after the allocation yields exactly the
strategy that was passed in. -/
theorem freeBuffer_unknown_noop_and_lookup_after_alloc :
    (∀ (st : MemState) (buffer : Nat),
      mapFind st.bufferStrategies buffer = none → FreeBuffer st buffer = st) ∧
    (∀ (st : MemState) (usage size : Nat) (strategy : MemoryPlacementStrategy)
      (targetGpus : List Nat),
      mapFind (AllocateBuffer st usage size strategy targetGpus).1.bufferStrategies
        (AllocateBuffer st usage size strategy targetGpus).2 = some strategy) := by
  constructor
  · intro st buffer h
    show { st with bufferStrategies := mapErase st.bufferStrategies buffer } = st
    rw [mapErase_not_found st.bufferStrategies buffer h]
  · intro st usage size strategy targetGpus
    exact mapFind_mapStore_self st.bufferStrategies 0 strategy

/-- C9 witness: the statement at a fresh memory manager, an unrecorded
handle 7, and a concrete allocation. -/
theorem freeBuffer_unknown_noop_witness :
    FreeBuffer mkMemoryManager 7 = mkMemoryManager ∧
    mapFind (AllocateBuffer mkMemoryManager 1 64 MemoryPlacementStrategy.DISTRIBUTED
        []).1.bufferStrategies
      (AllocateBuffer mkMemoryManager 1 64 MemoryPlacementStrategy.DISTRIBUTED []).2 =
      some MemoryPlacementStrategy.DISTRIBUTED :=
  ⟨freeBuffer_unknown_noop_and_lookup_after_alloc.1 mkMemoryManager 7 (by decide),
   freeBuffer_unknown_noop_and_lookup_after_alloc.2 mkMemoryManager 1 64
     MemoryPlacementStrategy.DISTRIBUTED []⟩

/-- A placement map reachable by the memory manager: empty, or a single
record keyed by the null handle. -/
def nullKeyedOnly (m : StrategyMap) : Prop :=
  m = [] ∨ ∃ v, m = [(0, v)]

lemma nullKeyedOnly_store (m : StrategyMap) (v : MemoryPlacementStrategy)
    (h : nullKeyedOnly m) : nullKeyedOnly (mapStore m 0 v) := by
  rcases h with h | ⟨u, h⟩
  · subst h; exact Or.inr ⟨v, rfl⟩
  · subst h; exact Or.inr ⟨v, by simp [mapStore]⟩

lemma nullKeyedOnly_erase (m : StrategyMap) (key : Nat)
    (h : nullKeyedOnly m) : nullKeyedOnly (mapErase m key) := by
  rcases h with h | ⟨u, h⟩
  · subst h; exact Or.inl rfl
  · subst h
    by_cases hk : key = 0
    · subst hk; exact Or.inl (by simp [mapErase])
    · refine Or.inr ⟨u, ?_⟩
      have h0 : ¬ (0 : Nat) = key := fun hh => hk hh.symm
      simp [mapErase, h0]

lemma nullKeyedOnly_length (m : StrategyMap) (h : nullKeyedOnly m) :
    m.length ≤ 1 := by
  rcases h with h | ⟨u, h⟩ <;> subst h <;> simp

lemma runMemOps_nullKeyedOnly : ∀ (ops : List MemOp) (st : MemState),
    nullKeyedOnly st.bufferStrategies → nullKeyedOnly st.imageStrategies →
    nullKeyedOnly (runMemOps st ops).bufferStrategies ∧
    nullKeyedOnly (runMemOps st ops).imageStrategies := by
  intro ops
  induction ops with
  | nil => exact fun st hb hi => ⟨hb, hi⟩
  | cons op rest ih =>
    intro st hb hi
    cases op with
    | allocBuffer u z strat t =>
      exact ih _ (nullKeyedOnly_store _ strat hb) hi
    | allocImage strat t =>
      exact ih _ hb (nullKeyedOnly_store _ strat hi)
    | freeBuffer b =>
      exact ih _ (nullKeyedOnly_erase _ b hb) hi
    | freeImage b =>
      exact ih _ hb (nullKeyedOnly_erase _ b hi)

/-- C10: `AllocateBuffer` and `AllocateImage` always return the null
handle (0) whatever their arguments; a second allocation therefore
overwrites the strategy recorded by the first rather than creating a
distinct record, and along any sequence of manager calls starting from a
fresh manager each placement map holds at most one entry. -/
theorem allocate_always_null_handle_single_record :
    (∀ (st : MemState) (usage size : Nat) (strategy : MemoryPlacementStrategy)
      (targetGpus : List Nat), (AllocateBuffer st usage size strategy targetGpus).2 = 0) ∧
    (∀ (st : MemState) (strategy : MemoryPlacementStrategy) (targetGpus : List Nat),
      (AllocateImage st strategy targetGpus).2 = 0) ∧
    (∀ (st : MemState) (u1 z1 u2 z2 : Nat) (s1 s2 : MemoryPlacementStrategy)
      (t1 t2 : List Nat),
      mapFind (AllocateBuffer (AllocateBuffer st u1 z1 s1 t1).1 u2 z2 s2
          t2).1.bufferStrategies 0 = some s2) ∧
    (∀ (st : MemState) (s1 s2 : MemoryPlacementStrategy) (t1 t2 : List Nat),
      mapFind (AllocateImage (AllocateImage st s1 t1).1 s2 t2).1.imageStrategies 0 =
        some s2) ∧
    (∀ ops : List MemOp,
      (runMemOps mkMemoryManager ops).bufferStrategies.length ≤ 1 ∧
      (runMemOps mkMemoryManager ops).imageStrategies.length ≤ 1) := by
  refine ⟨fun _ _ _ _ _ => rfl, fun _ _ _ => rfl, ?_, ?_, ?_⟩
  · intro st _ _ _ _ _ s2 _ _
    exact mapFind_mapStore_self _ 0 s2
  · intro st _ s2 _ _
    exact mapFind_mapStore_self _ 0 s2
  · intro ops
    have h := runMemOps_nullKeyedOnly ops mkMemoryManager (Or.inl rfl) (Or.inl rfl)
    exact ⟨nullKeyedOnly_length _ h.1, nullKeyedOnly_length _ h.2⟩

lemma admitCandidates_length_le : ∀ (l : List PhysicalDevice) (i : Nat),
    (admitCandidates i l).length ≤ l.length := by
  intro l
  induction l with
  | nil => intro i; simp [admitCandidates]
  | cons d rest ih =>
    intro i
    unfold admitCandidates
    cases h : SelectQueueFamilyIndices d.queueFamilies with
    | none => exact Nat.le_succ_of_le (ih (i + 1))
    | some s =>
      obtain ⟨g, c, t⟩ := s
      by_cases hb : d.bringupOk
      · simpa [hb] using Nat.succ_le_succ (ih (i + 1))
      · simpa [hb] using Nat.le_succ_of_le (ih (i + 1))

lemma admitCandidates_length_eq : ∀ (l : List PhysicalDevice) (i : Nat),
    (∀ d ∈ l, (SelectQueueFamilyIndices d.queueFamilies).isSome ∧ d.bringupOk = true) →
    (admitCandidates i l).length = l.length := by
  intro l
  induction l with
  | nil => intro i _; rfl
  | cons d rest ih =>
    intro i hall
    obtain ⟨hsome, hb⟩ := hall d (List.mem_cons_self d rest)
    unfold admitCandidates
    cases h : SelectQueueFamilyIndices d.queueFamilies with
    | none => rw [h] at hsome; simp at hsome
    | some s =>
      obtain ⟨g, c, t⟩ := s
      simp only [hb, if_true, List.length_cons]
      exact congrArg Nat.succ (ih (i + 1) fun d' hd' => hall d' (List.mem_cons_of_mem d hd'))

/-- C6 counterexample: the claim says `desiredCount` greater than the
available device count yields an active count equal to the available
count.  With one available device that has no graphics-capable queue
family and `desiredCount = 2`, queue-family selection rejects the only
candidate, the active set is empty and the call fails — the active count
is 0, not 1. -/
theorem initializeMultiGpu_not_always_available_count :
    InitializeMultiGpu [{ queueFamilies := [], bringupOk := true }] 2 = none ∧
    ([{ queueFamilies := [], bringupOk := true }] : List PhysicalDevice).length = 1 ∧
    ¬ ∃ active, InitializeMultiGpu [{ queueFamilies := [], bringupOk := true }] 2 =
        some active ∧ active.length = 1 := by
  refine ⟨by decide, rfl, ?_⟩
  rintro ⟨active, hact, -⟩
  rw [show InitializeMultiGpu [{ queueFamilies := [], bringupOk := true }] 2 = none
    from by decide] at hact
  exact Option.noConfusion hact

/-- C6 amended: zero enumerated devices is fatal; a successful call
returns a non-empty active set of size at most
`min(available, desiredCount)`; and when every attempted candidate
passes queue-family selection and bring-up (and at least one candidate
is attempted) the active count is exactly `min(available, desiredCount)`
— so a `desiredCount` above the available count yields exactly the
available count only when no candidate fails. -/
theorem initializeMultiGpu_active_count (devices : List PhysicalDevice)
    (desiredGpuCount : Nat) :
    (devices = [] → InitializeMultiGpu devices desiredGpuCount = none) ∧
    (∀ active, InitializeMultiGpu devices desiredGpuCount = some active →
      0 < active.length ∧ active.length ≤ min devices.length desiredGpuCount) ∧
    ((∀ d ∈ devices.take (min devices.length desiredGpuCount),
        (SelectQueueFamilyIndices d.queueFamilies).isSome ∧ d.bringupOk = true) →
      devices ≠ [] → 1 ≤ desiredGpuCount →
      ∃ active, InitializeMultiGpu devices desiredGpuCount = some active ∧
        active.length = min devices.length desiredGpuCount) := by
  have htake : (devices.take (min devices.length desiredGpuCount)).length =
      min devices.length desiredGpuCount := by
    rw [List.length_take]
    omega
  refine ⟨?_, ?_, ?_⟩
  · intro h; subst h; rfl
  · intro active hact
    unfold InitializeMultiGpu at hact
    by_cases hlen : devices.length = 0
    · simp [hlen] at hact
    · simp only [hlen, if_false] at hact
      by_cases he : (admitCandidates 0 (devices.take (min devices.length
          desiredGpuCount))).isEmpty
      · simp [he] at hact
      · rw [if_neg he] at hact
        obtain rfl : admitCandidates 0 (devices.take (min devices.length
            desiredGpuCount)) = active := Option.some.inj hact
        refine ⟨?_, ?_⟩
        · rcases Nat.eq_zero_or_pos (admitCandidates 0 (devices.take (min devices.length
            desiredGpuCount))).length with hz | hp
          · rw [List.isEmpty_iff_length_eq_zero] at he; omega
          · exact hp
        · calc (admitCandidates 0 (devices.take (min devices.length
              desiredGpuCount))).length
              ≤ (devices.take (min devices.length desiredGpuCount)).length :=
                admitCandidates_length_le _ 0
            _ = min devices.length desiredGpuCount := htake
  · intro hall hne hdes
    have hlen : devices.length ≠ 0 := fun h => hne (List.length_eq_zero.mp h)
    have hmin : 1 ≤ min devices.length desiredGpuCount := by
      have : 1 ≤ devices.length := Nat.one_le_iff_ne_zero.mpr hlen
      omega
    have heq : (admitCandidates 0 (devices.take (min devices.length
        desiredGpuCount))).length = min devices.length desiredGpuCount := by
      rw [admitCandidates_length_eq _ 0 hall, htake]
    refine ⟨admitCandidates 0 (devices.take (min devices.length desiredGpuCount)),
      ?_, heq⟩
    unfold InitializeMultiGpu
    have hie : (admitCandidates 0 (devices.take (min devices.length
        desiredGpuCount))).isEmpty = false := by
      cases hcase : admitCandidates 0 (devices.take (min devices.length
          desiredGpuCount)) with
      | nil => rw [hcase] at heq; simp at heq; omega
      | cons a l => rfl
    simp [hlen, hie]

/-- C6 witness: the amended statement at one fully capable device and
`desiredCount = 1`. -/
theorem initializeMultiGpu_active_count_witness :
    ∃ active,
      InitializeMultiGpu
        [{ queueFamilies := [{ graphics := true, compute := true, transfer := true }],
           bringupOk := true }] 1 = some active ∧
      active.length =
        min ([{ queueFamilies := [{ graphics := true, compute := true, transfer := true }],
                bringupOk := true }] : List PhysicalDevice).length 1 :=
  (initializeMultiGpu_active_count
      [{ queueFamilies := [{ graphics := true, compute := true, transfer := true }],
         bringupOk := true }] 1).2.2
    (by decide) (by decide) (by decide)

/-- Reference function for the spec's words "the last enumerated family
carrying" a capability: the index of the last family satisfying `p`, or
`none` when no family does. -/
def claimLastMatch (p : QueueFamily → Bool) : List QueueFamily → Option Nat
  | [] => none
  | f :: rest =>
    match claimLastMatch p rest with
    | some j => some (j + 1)
    | none => if p f then some 0 else none

/-- Reference function for the spec's words "the first family carrying"
a capability: the index of the first family satisfying `p`, or `none`
when no family does. -/
def claimFirstMatch (p : QueueFamily → Bool) : List QueueFamily → Option Nat
  | [] => none
  | f :: rest => if p f then some 0 else (claimFirstMatch p rest).map (· + 1)

/-- The graphics component of the selection loop in isolation: "last
match wins". -/
def lastIdx (p : QueueFamily → Bool) : Nat → Nat → List QueueFamily → Nat
  | _, acc, [] => acc
  | i, acc, f :: rest => lastIdx p (i + 1) (if p f then i else acc) rest

/-- The compute/transfer component of the selection loop in isolation:
"first match wins", guarded by the `UINT32_MAX` sentinel. -/
def firstIdx (p : QueueFamily → Bool) : Nat → Nat → List QueueFamily → Nat
  | _, acc, [] => acc
  | i, acc, f :: rest =>
    firstIdx p (i + 1) (if p f && (acc == UINT32_MAX) then i else acc) rest

lemma selectAux_eq : ∀ (l : List QueueFamily) (i g c t : Nat),
    selectAux i l (g, c, t) =
      (lastIdx (fun f => f.graphics) i g l,
       firstIdx (fun f => f.compute) i c l,
       firstIdx (fun f => f.transfer) i t l) := by
  intro l
  induction l with
  | nil => intro i g c t; rfl
  | cons f rest ih =>
    intro i g c t
    simp only [selectAux, selectStep, lastIdx, firstIdx]
    exact ih (i + 1) _ _ _

lemma claimLastMatch_lt_length {p : QueueFamily → Bool} :
    ∀ {l : List QueueFamily} {j : Nat}, claimLastMatch p l = some j → j < l.length := by
  intro l
  induction l with
  | nil => intro j h; simp [claimLastMatch] at h
  | cons f rest ih =>
    intro j h
    unfold claimLastMatch at h
    cases hr : claimLastMatch p rest with
    | some j' =>
      rw [hr] at h
      obtain rfl : j' + 1 = j := Option.some.inj h
      exact Nat.succ_lt_succ (ih hr)
    | none =>
      rw [hr] at h
      by_cases hf : p f
      · simp only [hf, if_true] at h
        obtain rfl : (0 : Nat) = j := Option.some.inj h
        simp
      · simp [hf] at h

lemma claimFirstMatch_lt_length {p : QueueFamily → Bool} :
    ∀ {l : List QueueFamily} {j : Nat}, claimFirstMatch p l = some j → j < l.length := by
  intro l
  induction l with
  | nil => intro j h; simp [claimFirstMatch] at h
  | cons f rest ih =>
    intro j h
    unfold claimFirstMatch at h
    by_cases hf : p f
    · simp only [hf, if_true] at h
      obtain rfl : (0 : Nat) = j := Option.some.inj h
      simp
    · rw [if_neg hf] at h
      cases hr : claimFirstMatch p rest with
      | some j' =>
        rw [hr] at h
        obtain rfl : j' + 1 = j := Option.some.inj h
        exact Nat.succ_lt_succ (ih hr)
      | none => rw [hr] at h; simp at h

lemma lastIdx_eq_claim (p : QueueFamily → Bool) : ∀ (l : List QueueFamily) (i acc : Nat),
    lastIdx p i acc l =
      match claimLastMatch p l with
      | some j => i + j
      | none => acc := by
  intro l
  induction l with
  | nil => intro i acc; rfl
  | cons f rest ih =>
    intro i acc
    rw [lastIdx, ih (i + 1) _]
    cases hr : claimLastMatch p rest with
    | some j =>
      have hcons : claimLastMatch p (f :: rest) = some (j + 1) := by
        simp [claimLastMatch, hr]
      rw [hcons]
      show i + 1 + j = i + (j + 1)
      omega
    | none =>
      have hcons : claimLastMatch p (f :: rest) = if p f then some 0 else none := by
        simp [claimLastMatch, hr]
      rw [hcons]
      by_cases hf : p f <;> simp [hf]

lemma firstIdx_stay (p : QueueFamily → Bool) : ∀ (l : List QueueFamily) (i acc : Nat),
    acc ≠ UINT32_MAX → firstIdx p i acc l = acc := by
  intro l
  induction l with
  | nil => intro i acc _; rfl
  | cons f rest ih =>
    intro i acc hacc
    rw [firstIdx]
    have : (acc == UINT32_MAX) = false := by simpa using hacc
    rw [this, Bool.and_false, if_neg (by simp)]
    exact ih (i + 1) acc hacc

lemma firstIdx_eq_claim (p : QueueFamily → Bool) : ∀ (l : List QueueFamily) (i : Nat),
    i + l.length ≤ UINT32_MAX →
    firstIdx p i UINT32_MAX l =
      match claimFirstMatch p l with
      | some j => i + j
      | none => UINT32_MAX := by
  intro l
  induction l with
  | nil => intro i _; rfl
  | cons f rest ih =>
    intro i hlen
    rw [firstIdx]
    by_cases hf : p f
    · have hcond : (p f && (UINT32_MAX == UINT32_MAX)) = true := by simp [hf]
      rw [hcond, if_pos rfl]
      have hi : i ≠ UINT32_MAX := by
        simp only [List.length_cons] at hlen; omega
      rw [firstIdx_stay p rest (i + 1) i hi]
      simp [claimFirstMatch, hf]
    · have hcond : (p f && (UINT32_MAX == UINT32_MAX)) = false := by simp [hf]
      rw [hcond, if_neg (by simp)]
      have hlen' : i + 1 + rest.length ≤ UINT32_MAX := by
        simp only [List.length_cons] at hlen; omega
      rw [ih (i + 1) hlen']
      cases hr : claimFirstMatch p rest with
      | some j =>
        have hcons : claimFirstMatch p (f :: rest) = some (j + 1) := by
          simp [claimFirstMatch, hf, hr]
        rw [hcons]
        show i + 1 + j = i + (j + 1)
        omega
      | none =>
        have hcons : claimFirstMatch p (f :: rest) = none := by
          simp [claimFirstMatch, hf, hr]
        rw [hcons]

/-- C5 amended: for any family list of realistic length, the selection
resolves the graphics family to the *last* graphics-capable family, the
compute family to the *first* compute-capable family — even when that
family is the one claimed by graphics — and the transfer family to the
*first* transfer-capable family, with `UINT32_MAX` left in place when no
family carries the capability; a device with no graphics-capable family
is rejected (`none`). -/
theorem selectQueueFamilyIndices_resolution (queueFamilies : List QueueFamily)
    (hlen : queueFamilies.length ≤ UINT32_MAX) :
    SelectQueueFamilyIndices queueFamilies =
      (claimLastMatch (fun f => f.graphics) queueFamilies).map fun g =>
        (g, (claimFirstMatch (fun f => f.compute) queueFamilies).getD UINT32_MAX,
            (claimFirstMatch (fun f => f.transfer) queueFamilies).getD UINT32_MAX) := by
  unfold SelectQueueFamilyIndices
  rw [selectAux_eq, lastIdx_eq_claim, firstIdx_eq_claim _ _ 0 (by omega),
    firstIdx_eq_claim _ _ 0 (by omega)]
  cases hg : claimLastMatch (fun f => f.graphics) queueFamilies with
  | none => simp
  | some g =>
    have hglt : g < queueFamilies.length := claimLastMatch_lt_length hg
    have hgne : ¬ g = UINT32_MAX := by omega
    cases hc : claimFirstMatch (fun f => f.compute) queueFamilies <;>
      cases ht : claimFirstMatch (fun f => f.transfer) queueFamilies <;>
      simp [hgne]

/-- C5 witness: the amended resolution at a concrete family list (family
0: graphics+compute, family 1: compute, family 2: graphics+transfer). -/
theorem selectQueueFamilyIndices_resolution_witness :
    SelectQueueFamilyIndices
        [{ graphics := true, compute := true, transfer := false },
         { graphics := false, compute := true, transfer := false },
         { graphics := true, compute := false, transfer := true }] =
      (claimLastMatch (fun f => f.graphics)
          [{ graphics := true, compute := true, transfer := false },
           { graphics := false, compute := true, transfer := false },
           { graphics := true, compute := false, transfer := true }]).map fun g =>
        (g, (claimFirstMatch (fun f => f.compute)
              [{ graphics := true, compute := true, transfer := false },
               { graphics := false, compute := true, transfer := false },
               { graphics := true, compute := false, transfer := true }]).getD UINT32_MAX,
            (claimFirstMatch (fun f => f.transfer)
              [{ graphics := true, compute := true, transfer := false },
               { graphics := false, compute := true, transfer := false },
               { graphics := true, compute := false, transfer := true }]).getD UINT32_MAX) :=
  selectQueueFamilyIndices_resolution
    [{ graphics := true, compute := true, transfer := false },
     { graphics := false, compute := true, transfer := false },
     { graphics := true, compute := false, transfer := true }] (by decide)

/-- Helper for the claim's compute rule: the first compute-capable
family whose index differs from `avoid`. -/
def firstComputeAvoiding (avoid : Option Nat) : Nat → List QueueFamily → Option Nat
  | _, [] => none
  | i, f :: rest =>
    if f.compute ∧ avoid ≠ some i then some i
    else firstComputeAvoiding avoid (i + 1) rest

/-- Reference function for the claim's compute rule: the first family
carrying compute capability that is *not already claimed by graphics*,
graphics claiming the last graphics-capable family. -/
def claimComputeNotClaimedByGraphics (queueFamilies : List QueueFamily) : Option Nat :=
  firstComputeAvoiding (claimLastMatch (fun f => f.graphics) queueFamilies) 0
    queueFamilies

/-- C5 counterexample: with family 0 carrying graphics+compute and
family 1 carrying compute only, graphics claims family 0, so the claim's
rule picks family 1 as the compute family; the code picks family 0 (the
first compute-capable family, with no "claimed by graphics" test). -/
theorem selectQueueFamilyIndices_compute_ignores_graphics_claim :
    SelectQueueFamilyIndices
        [{ graphics := true, compute := true, transfer := false },
         { graphics := false, compute := true, transfer := false }] =
      some (0, 0, UINT32_MAX) ∧
    claimLastMatch (fun f => f.graphics)
        [{ graphics := true, compute := true, transfer := false },
         { graphics := false, compute := true, transfer := false }] = some 0 ∧
    claimComputeNotClaimedByGraphics
        [{ graphics := true, compute := true, transfer := false },
         { graphics := false, compute := true, transfer := false }] = some 1 ∧
    (0 : Nat) ≠ 1 := by
  refine ⟨by decide, by decide, ?_, by decide⟩
  decide

/-- The region built by one iteration of the horizontal-split loop. -/
def horizRegion (frameWidth frameHeight gpuCount i : Nat) : FrameRegion :=
  { offsetX := i * (frameWidth / gpuCount)
    offsetY := 0
    width := if i = gpuCount - 1 then frameWidth - i * (frameWidth / gpuCount)
             else frameWidth / gpuCount
    height := frameHeight
    gpuIndex := i }

/-- The region built by one iteration of the vertical-split loop. -/
def vertRegion (frameWidth frameHeight gpuCount i : Nat) : FrameRegion :=
  { offsetX := 0
    offsetY := i * (frameHeight / gpuCount)
    width := frameWidth
    height := if i = gpuCount - 1 then frameHeight - i * (frameHeight / gpuCount)
              else frameHeight / gpuCount
    gpuIndex := i }

/-- The region built by one iteration of the quadrant-split loop. -/
def quadRegion (frameWidth frameHeight i : Nat) : FrameRegion :=
  if i = 0 then
    { offsetX := 0, offsetY := 0, width := frameWidth / 2, height := frameHeight / 2,
      gpuIndex := i }
  else if i = 1 then
    { offsetX := frameWidth / 2, offsetY := 0, width := frameWidth - frameWidth / 2,
      height := frameHeight / 2, gpuIndex := i }
  else if i = 2 then
    { offsetX := 0, offsetY := frameHeight / 2, width := frameWidth / 2,
      height := frameHeight - frameHeight / 2, gpuIndex := i }
  else
    { offsetX := frameWidth / 2, offsetY := frameHeight / 2,
      width := frameWidth - frameWidth / 2, height := frameHeight - frameHeight / 2,
      gpuIndex := i }

lemma horizontalSplit_eq (w h c : Nat) (hc : 0 < c) :
    ComputeHorizontalSplit w h c = some ((List.range c).map (horizRegion w h c)) := by
  unfold ComputeHorizontalSplit checkedDiv horizRegion
  rw [if_neg (by omega)]
  rfl

lemma verticalSplit_eq (w h c : Nat) (hc : 0 < c) :
    ComputeVerticalSplit w h c = some ((List.range c).map (vertRegion w h c)) := by
  unfold ComputeVerticalSplit checkedDiv vertRegion
  rw [if_neg (by omega)]
  rfl

lemma quadrantSplit_eq (w h c : Nat) (hc : 4 ≤ c) :
    ComputeQuadrantSplit w h c = (List.range 4).map (quadRegion w h) := by
  unfold ComputeQuadrantSplit quadRegion
  rw [Nat.min_eq_left hc]

/-- A region list of the shape `(List.range c).map f` is a partition as
soon as the indexed family `f` covers each frame pixel exactly once and
stays inside the frame. -/
lemma partition_of_range_map (c w h : Nat) (f : Nat → FrameRegion)
    (hin : ∀ i, i < c → ∀ x y, covers (f i) x y → x < w ∧ y < h)
    (hcov : ∀ x y, x < w → y < h → ∃ i, i < c ∧ covers (f i) x y ∧
        ∀ j, j < c → covers (f j) x y → j = i) :
    isPartition ((List.range c).map f) w h := by
  constructor
  · intro r hr x y hc
    obtain ⟨i, hi, rfl⟩ := List.mem_map.mp hr
    exact hin i (List.mem_range.mp hi) x y hc
  · intro x y hx hy
    obtain ⟨i, hic, hcov', huniq⟩ := hcov x y hx hy
    have hlen : ((List.range c).map f).length = c := by simp
    refine ⟨i, by rw [hlen]; exact hic, ?_, ?_⟩
    · simpa using hcov'
    · intro j hj hcj
      simp only [List.getElem_map, List.getElem_range] at hcj
      exact huniq j (by rw [hlen] at hj; exact hj) hcj

lemma strip_in_frame (t c i : Nat) (hi : i < c) :
    i * (t / c) + (if i = c - 1 then t - i * (t / c) else t / c) ≤ t := by
  have hdm : t / c * c ≤ t := Nat.div_mul_le_self t c
  by_cases hlast : i = c - 1
  · subst hlast
    rw [if_pos rfl]
    have h1 : (c - 1) * (t / c) ≤ t := by
      calc (c - 1) * (t / c) ≤ c * (t / c) := mul_le_mul_right' (Nat.sub_le c 1) _
        _ = t / c * c := Nat.mul_comm _ _
        _ ≤ t := hdm
    omega
  · rw [if_neg hlast]
    have h2 : (i + 1) * (t / c) ≤ t := by
      calc (i + 1) * (t / c) ≤ c * (t / c) := mul_le_mul_right' (by omega) _
        _ = t / c * c := Nat.mul_comm _ _
        _ ≤ t := hdm
    rw [Nat.succ_mul] at h2
    omega

lemma strip_cover (t c x : Nat) (hc : 0 < c) (hx : x < t) :
    ∃ i, i < c ∧ i * (t / c) ≤ x ∧
      x < i * (t / c) + (if i = c - 1 then t - i * (t / c) else t / c) ∧
      ∀ j, j < c → j * (t / c) ≤ x →
        x < j * (t / c) + (if j = c - 1 then t - j * (t / c) else t / c) → j = i := by
  have hct : (c - 1) * (t / c) ≤ t := by
    calc (c - 1) * (t / c) ≤ c * (t / c) := mul_le_mul_right' (Nat.sub_le c 1) _
      _ = t / c * c := Nat.mul_comm _ _
      _ ≤ t := Nat.div_mul_le_self t c
  by_cases hq0 : t / c = 0
  · refine ⟨c - 1, by omega, by simp [hq0], ?_, ?_⟩
    · rw [if_pos rfl, hq0]
      simpa using hx
    · intro j hj _ hlt
      by_cases hjl : j = c - 1
      · exact hjl
      · rw [if_neg hjl, hq0] at hlt
        simp at hlt
  · have hqpos : 0 < t / c := Nat.pos_of_ne_zero hq0
    have hdm : x / (t / c) * (t / c) + x % (t / c) = x := Nat.div_add_mod' x (t / c)
    have hmod : x % (t / c) < t / c := Nat.mod_lt x hqpos
    by_cases hdc : x / (t / c) < c - 1
    · refine ⟨x / (t / c), by omega, by omega, ?_, ?_⟩
      · rw [if_neg (by omega)]
        omega
      · intro j hj hle hlt
        by_cases hjl : j = c - 1
        · subst hjl
          have hstep : (x / (t / c) + 1) * (t / c) ≤ (c - 1) * (t / c) :=
            mul_le_mul_right' (by omega) _
          rw [Nat.succ_mul] at hstep
          omega
        · rw [if_neg hjl] at hlt
          rcases Nat.lt_trichotomy j (x / (t / c)) with hlt' | heq | hgt
          · have hstep : (j + 1) * (t / c) ≤ x / (t / c) * (t / c) :=
              mul_le_mul_right' (by omega) _
            rw [Nat.succ_mul] at hstep
            omega
          · exact heq
          · have hstep : (x / (t / c) + 1) * (t / c) ≤ j * (t / c) :=
              mul_le_mul_right' (by omega) _
            rw [Nat.succ_mul] at hstep
            omega
    · refine ⟨c - 1, by omega, ?_, ?_, ?_⟩
      · have hstep : (c - 1) * (t / c) ≤ x / (t / c) * (t / c) :=
          mul_le_mul_right' (by omega) _
        omega
      · rw [if_pos rfl]
        omega
      · intro j hj hle hlt
        by_cases hjl : j = c - 1
        · exact hjl
        · rw [if_neg hjl] at hlt
          have hstep : (j + 1) * (t / c) ≤ x / (t / c) * (t / c) :=
            mul_le_mul_right' (by omega) _
          rw [Nat.succ_mul] at hstep
          omega

lemma horizontal_partition (w h c : Nat) (hc : 0 < c) :
    isPartition ((List.range c).map (horizRegion w h c)) w h := by
  apply partition_of_range_map
  · intro i hi x y hcov
    have hin := strip_in_frame w c i hi
    simp only [covers, horizRegion] at hcov
    obtain ⟨h1, h2, h3, h4⟩ := hcov
    exact ⟨by omega, by omega⟩
  · intro x y hx hy
    obtain ⟨i, hic, hle, hlt, huniq⟩ := strip_cover w c x hc hx
    refine ⟨i, hic, ?_, ?_⟩
    · simp only [covers, horizRegion]
      exact ⟨hle, hlt, by omega, by omega⟩
    · intro j hj hcov
      simp only [covers, horizRegion] at hcov
      exact huniq j hj hcov.1 hcov.2.1

lemma vertical_partition (w h c : Nat) (hc : 0 < c) :
    isPartition ((List.range c).map (vertRegion w h c)) w h := by
  apply partition_of_range_map
  · intro i hi x y hcov
    have hin := strip_in_frame h c i hi
    simp only [covers, vertRegion] at hcov
    obtain ⟨h1, h2, h3, h4⟩ := hcov
    exact ⟨by omega, by omega⟩
  · intro x y hx hy
    obtain ⟨i, hic, hle, hlt, huniq⟩ := strip_cover h c y hc hy
    refine ⟨i, hic, ?_, ?_⟩
    · simp only [covers, vertRegion]
      exact ⟨by omega, by omega, hle, hlt⟩
    · intro j hj hcov
      simp only [covers, vertRegion] at hcov
      exact huniq j hj hcov.2.2.1 hcov.2.2.2

lemma quadrant_partition (w h : Nat) :
    isPartition ((List.range 4).map (quadRegion w h)) w h := by
  have hw : w / 2 ≤ w := Nat.div_le_self w 2
  have hh : h / 2 ≤ h := Nat.div_le_self h 2
  apply partition_of_range_map
  · intro i hi x y hcov
    interval_cases i <;> simp [covers, quadRegion] at hcov <;> omega
  · intro x y hx hy
    by_cases hxw : x < w / 2 <;> by_cases hyh : y < h / 2
    · refine ⟨0, by omega, by simp [covers, quadRegion] <;> omega, ?_⟩
      intro j hj hcov
      interval_cases j <;> simp [covers, quadRegion] at hcov <;> omega
    · refine ⟨2, by omega, by simp [covers, quadRegion] <;> omega, ?_⟩
      intro j hj hcov
      interval_cases j <;> simp [covers, quadRegion] at hcov <;> omega
    · refine ⟨1, by omega, by simp [covers, quadRegion] <;> omega, ?_⟩
      intro j hj hcov
      interval_cases j <;> simp [covers, quadRegion] at hcov <;> omega
    · refine ⟨3, by omega, by simp [covers, quadRegion] <;> omega, ?_⟩
      intro j hj hcov
      interval_cases j <;> simp [covers, quadRegion] at hcov <;> omega

/-- C1 counterexample: the claim says every mode partitions the frame
for any active count `≥ 1`.  In quadrant mode with one active device and
a 2×2 frame the single returned region is the top-left 1×1 quadrant, so
the in-frame pixel (1, 1) is covered by no region — the union has a
gap. -/
theorem quadrant_split_under_four_has_gap :
    ∃ rs, ComputeFrameRegions FrameDistributionMode.SPLIT_FRAME_QUADRANTS 2 2 1 =
        some rs ∧ ¬ isPartition rs 2 2 := by
  refine ⟨ComputeQuadrantSplit 2 2 1, rfl, fun hP => ?_⟩
  obtain ⟨i, hi, hcov, -⟩ := hP.2 1 1 (by omega) (by omega)
  have hmem : (ComputeQuadrantSplit 2 2 1)[i] ∈
      ([{ offsetX := 0, offsetY := 0, width := 1, height := 1, gpuIndex := 0 }] :
        List FrameRegion) := List.getElem_mem hi
  rw [List.mem_singleton.mp hmem] at hcov
  exact absurd hcov (by decide)

/-- C1 amended: for the horizontal and vertical modes (and the
fall-through modes, which reuse the horizontal split) any active count
`≥ 1` yields an exact, non-overlapping, gap-free partition of
`[0,width)×[0,height)`; the quadrant mode yields such a partition when
the active count is at least 4, while counts 1–3 leave part of the frame
uncovered. -/
theorem computeFrameRegions_partition (mode : FrameDistributionMode)
    (w h c : Nat) (hc : 1 ≤ c)
    (hquad : mode = FrameDistributionMode.SPLIT_FRAME_QUADRANTS → 4 ≤ c) :
    ∃ rs, ComputeFrameRegions mode w h c = some rs ∧ isPartition rs w h := by
  cases mode with
  | SPLIT_FRAME_HORIZONTAL =>
    exact ⟨_, horizontalSplit_eq w h c hc, horizontal_partition w h c hc⟩
  | SPLIT_FRAME_VERTICAL =>
    exact ⟨_, verticalSplit_eq w h c hc, vertical_partition w h c hc⟩
  | SPLIT_FRAME_QUADRANTS =>
    refine ⟨(List.range 4).map (quadRegion w h), ?_, quadrant_partition w h⟩
    show some (ComputeQuadrantSplit w h c) = _
    rw [quadrantSplit_eq w h c (hquad rfl)]
  | AFR_ALTERNATING =>
    exact ⟨_, horizontalSplit_eq w h c hc, horizontal_partition w h c hc⟩
  | SFR_OPTIMIZED =>
    exact ⟨_, horizontalSplit_eq w h c hc, horizontal_partition w h c hc⟩

/-- C1 witness: the amended partition statement at quadrant mode on a
100×100 frame with 4 active devices. -/
theorem computeFrameRegions_partition_witness :
    ∃ rs, ComputeFrameRegions FrameDistributionMode.SPLIT_FRAME_QUADRANTS 100 100 4 =
        some rs ∧ isPartition rs 100 100 :=
  computeFrameRegions_partition FrameDistributionMode.SPLIT_FRAME_QUADRANTS 100 100 4
    (by omega) (fun _ => by omega)

/-- C8: in horizontal split mode with count `≥ 1` every region except
the last has width `⌊frameWidth/count⌋`, the last absorbs the remainder
(the widths sum to exactly `frameWidth`), and concretely width 1920 with
count 3 yields widths 640/640/640 while width 1921 yields
640/640/641. -/
theorem horizontalSplit_region_widths (w h c : Nat) (hc : 1 ≤ c) :
    ∃ rs, ComputeHorizontalSplit w h c = some rs ∧
      rs.map FrameRegion.width = (List.range c).map
        (fun i => if i = c - 1 then w - (c - 1) * (w / c) else w / c) ∧
      (rs.map FrameRegion.width).sum = w ∧
      ((ComputeHorizontalSplit 1920 1080 3).map fun l => l.map FrameRegion.width) =
        some [640, 640, 640] ∧
      ((ComputeHorizontalSplit 1921 1080 3).map fun l => l.map FrameRegion.width) =
        some [640, 640, 641] := by
  have hwidths : ((List.range c).map (horizRegion w h c)).map FrameRegion.width =
      (List.range c).map (fun i => if i = c - 1 then w - (c - 1) * (w / c) else w / c) := by
    rw [List.map_map]
    apply List.map_congr_left
    intro i hi
    by_cases hil : i = c - 1
    · subst hil; simp [Function.comp, horizRegion]
    · simp [Function.comp, horizRegion, hil]
  refine ⟨(List.range c).map (horizRegion w h c), horizontalSplit_eq w h c hc,
    hwidths, ?_, by decide, by decide⟩
  rw [hwidths]
  obtain ⟨d, rfl⟩ : ∃ d, c = d + 1 := ⟨c - 1, by omega⟩
  have hdw : d * (w / (d + 1)) ≤ w := by
    calc d * (w / (d + 1)) ≤ (d + 1) * (w / (d + 1)) := mul_le_mul_right' (by omega) _
      _ = w / (d + 1) * (d + 1) := Nat.mul_comm _ _
      _ ≤ w := Nat.div_mul_le_self w (d + 1)
  rw [List.range_succ, List.map_append, List.sum_append]
  have hconst : (List.range d).map
      (fun i => if i = d + 1 - 1 then w - (d + 1 - 1) * (w / (d + 1)) else w / (d + 1)) =
      List.replicate d (w / (d + 1)) := by
    have : ∀ i ∈ List.range d,
        (if i = d + 1 - 1 then w - (d + 1 - 1) * (w / (d + 1)) else w / (d + 1)) =
          w / (d + 1) := by
      intro i hi
      have hid : i < d := List.mem_range.mp hi
      rw [if_neg (by omega)]
    rw [List.map_congr_left this, List.map_const', List.length_range]
  rw [hconst, List.sum_replicate, smul_eq_mul]
  simp only [List.map_cons, List.map_nil, List.sum_cons, List.sum_nil]
  rw [if_pos (by omega)]
  have hd1 : d + 1 - 1 = d := by omega
  rw [hd1]
  omega

/-- C8 witness: the width statement at width 1921, height 1080, count
3. -/
theorem horizontalSplit_region_widths_witness :
    ∃ rs, ComputeHorizontalSplit 1921 1080 3 = some rs ∧
      rs.map FrameRegion.width = (List.range 3).map
        (fun i => if i = 3 - 1 then 1921 - (3 - 1) * (1921 / 3) else 1921 / 3) ∧
      (rs.map FrameRegion.width).sum = 1921 ∧
      ((ComputeHorizontalSplit 1920 1080 3).map fun l => l.map FrameRegion.width) =
        some [640, 640, 640] ∧
      ((ComputeHorizontalSplit 1921 1080 3).map fun l => l.map FrameRegion.width) =
        some [640, 640, 641] :=
  horizontalSplit_region_widths 1921 1080 3 (by omega)
